import Mathlib

/-!
Shallow embedding of the MDOF-Ontology core (src/mode.py, src/command.py,
src/device.py): Python runtime values, dictionaries as ordered association
lists, and the three state machines Mode, Command and Device, together with
theorems settling the specification claims about them.
-/

namespace MDOF

/-- A Python runtime value as used for state variables and command
parameters: `bool`, `int`, `float` (modelled exactly as a rational) or
`str`. -/
inductive Value where
  | vBool : Bool → Value
  | vInt : Int → Value
  | vFloat : Rat → Value
  | vStr : String → Value
deriving DecidableEq, Repr

/-- A Python type object usable as the second argument of `isinstance`. -/
inductive PType where
  | tBool
  | tInt
  | tFloat
  | tStr
deriving DecidableEq, Repr

/-- `type.__name__` for the modelled Python types. -/
def PType.name : PType → String
  | .tBool => "bool"
  | .tInt => "int"
  | .tFloat => "float"
  | .tStr => "str"

/-- Numeric view of a value: Python treats `bool` as the subtype of `int`
with `True == 1` and `False == 0`, and compares `int` and `float`
numerically. Strings have no numeric view. -/
def toNum : Value → Option Rat
  | .vBool b => some (if b then 1 else 0)
  | .vInt n => some (n : Rat)
  | .vFloat q => some q
  | .vStr _ => none

/-- Python `==` on the modelled values: cross-type numeric equality for
`bool`/`int`/`float`, structural equality otherwise (a string never equals
a number). -/
def pyEq (a b : Value) : Bool :=
  match toNum a, toNum b with
  | some x, some y => x == y
  | _, _ => a == b

/-- Python `<=` on the modelled values: numeric comparison when both sides
are numeric, lexicographic comparison between two strings, and a
`TypeError` (`none`) between a string and a number. -/
def pyLe (a b : Value) : Option Bool :=
  match toNum a, toNum b with
  | some x, some y => some (decide (x ≤ y))
  | _, _ =>
    match a, b with
    | .vStr s, .vStr t => some (decide (s < t) || s == t)
    | _, _ => none

/-- A Python `dict` with string keys, as an insertion-ordered association
list (real dicts never hold a key twice, so first-match lookup agrees). -/
abbrev Dict (α : Type) : Type := List (String × α)

/-- Python `d[k]` / `k in d`: lookup of the first binding of `k`. -/
def lookupD {α : Type} (d : Dict α) (k : String) : Option α :=
  match d.find? (fun p => p.1 == k) with
  | some p => some p.2
  | none => none

/-- Python `d[k] = v`: update the binding in place if the key is present,
append it otherwise. -/
def setD {α : Type} (d : Dict α) (k : String) (v : α) : Dict α :=
  if (lookupD d k).isSome then
    d.map (fun p => if p.1 == k then (k, v) else p)
  else
    d ++ [(k, v)]

/-- Left-pad a digit string with zeros to the given length. -/
def padZeros (s : String) (k : Nat) : String :=
  String.mk (List.replicate (k - s.length) '0') ++ s

/-- Drop trailing zeros of a fractional-digit string, keeping one digit. -/
def dropTrailingZeros (s : String) : String :=
  match (s.data.reverse.dropWhile (fun c => c == '0')).reverse with
  | [] => "0"
  | l => String.mk l

/-- Python `str()` of a float, for the rationals that stand in for floats:
integral values print with a trailing `.0`, other values with up to 17
fractional digits, trailing zeros stripped. -/
def ratStr (q : Rat) : String :=
  if q.den = 1 then toString q.num ++ ".0"
  else
    let sign := if q.num < 0 then "-" else ""
    let n := q.num.natAbs
    let ip := n / q.den
    let digits := n % q.den * 10 ^ 17 / q.den
    sign ++ toString ip ++ "." ++ dropTrailingZeros (padZeros (toString digits) 17)

/-- Python `str()` of a value (as interpolated into error messages). -/
def pyStr : Value → String
  | .vBool true => "True"
  | .vBool false => "False"
  | .vInt n => toString n
  | .vFloat q => ratStr q
  | .vStr s => s

/-- One entry of `Mode.transitions[from_state]`: the dict
`{'to_state': ..., 'conditions': ...}` built by `add_transition`. -/
structure Transition where
  to_state : String
  conditions : Dict Value
deriving DecidableEq, Repr

/-- One entry of `Mode._history`:
`{'from_state': ..., 'to_state': ..., 'timestamp': ...}` (the wall-clock
`time.time()` stamp is modelled as a natural number). -/
structure HistEntry where
  from_state : String
  to_state : String
  timestamp : Nat
deriving DecidableEq, Repr

/-- Payload value of an observer notification: either a plain value or a
nested dict of values. -/
inductive Field where
  | v : Value → Field
  | d : Dict Value → Field
deriving DecidableEq, Repr

/-- An observer-notification payload (the `data`/`result` dict). -/
abbrev Payload : Type := Dict Field

/-- One `notify_observers(event, data)` call made by a `Mode` operation
(the synchronous broadcast to all observers, recorded as an event). -/
structure ModeEvent where
  event : String
  data : Payload
deriving DecidableEq, Repr

/-- The mutable state of `Mode` (src/mode.py `__init__`), minus the
observer list, which the event traces stand in for. -/
structure Mode where
  mode_id : String
  name : String
  description : String
  allowed_commands : List String
  required_commands : List String
  state_variables : Dict Value
  transitions : Dict (List Transition)
  current_state : String
  history : List HistEntry
deriving DecidableEq, Repr

/-- `Mode.__init__`: empty command lists, no variables or transitions, and
`current_state = "initial"`. -/
def mkMode (mode_id name description : String) : Mode :=
  { mode_id := mode_id
    name := name
    description := description
    allowed_commands := []
    required_commands := []
    state_variables := []
    transitions := []
    current_state := "initial"
    history := [] }

/-- `Mode.add_command`: append to `allowed_commands` only when absent, and
then also to `required_commands` when the `required` flag is set. -/
def Mode.add_command (m : Mode) (command_id : String) (required : Bool) : Mode :=
  if command_id ∈ m.allowed_commands then m
  else
    { m with
      allowed_commands := m.allowed_commands ++ [command_id]
      required_commands :=
        if required then m.required_commands ++ [command_id]
        else m.required_commands }

/-- Python `list.remove`: delete the first occurrence of an element. -/
def removeFirst : List String → String → List String
  | [], _ => []
  | x :: xs, c => if x == c then xs else x :: removeFirst xs c

/-- `Mode.remove_command`: drop the command from `allowed_commands` and
from `required_commands` when present in each. -/
def Mode.remove_command (m : Mode) (command_id : String) : Mode :=
  { m with
    allowed_commands :=
      if command_id ∈ m.allowed_commands then
        removeFirst m.allowed_commands command_id
      else m.allowed_commands
    required_commands :=
      if command_id ∈ m.required_commands then
        removeFirst m.required_commands command_id
      else m.required_commands }

/-- `Mode.is_command_allowed`: membership in `allowed_commands`. -/
def Mode.is_command_allowed (m : Mode) (command_id : String) : Bool :=
  command_id ∈ m.allowed_commands

/-- `Mode.add_transition`: append `{to_state, conditions}` to the ordered
candidate list of `from_state` (creating the list when absent). -/
def Mode.add_transition (m : Mode) (from_state to_state : String)
    (conditions : Dict Value) : Mode :=
  let old := (lookupD m.transitions from_state).getD []
  { m with
    transitions :=
      setD m.transitions from_state (old ++ [Transition.mk to_state conditions]) }

/-- The condition loop of `Mode.can_transition_to` (src/mode.py:66-70): a
condition whose variable is present with a non-equal value fails with
"Condition not met"; a condition whose variable is absent from
`state_variables` is skipped. -/
def checkConditions (vars : Dict Value) : Dict Value → Bool × String
  | [] => (true, "Transition allowed")
  | (c, v) :: rest =>
    match lookupD vars c with
    | some w =>
      if pyEq w v then checkConditions vars rest
      else (false, "Condition not met: " ++ c ++ " = " ++ pyStr v)
    | none => checkConditions vars rest

/-- The candidate loop of `Mode.can_transition_to` (src/mode.py:63-72):
return on the first candidate whose `to_state` matches, checking only its
conditions. -/
def scanCandidates (vars : Dict Value) (to_state : String) :
    List Transition → Bool × String
  | [] => (false, "No transition defined to state: " ++ to_state)
  | t :: rest =>
    if t.to_state == to_state then checkConditions vars t.conditions
    else scanCandidates vars to_state rest

/-- `Mode.can_transition_to`. -/
def Mode.can_transition_to (m : Mode) (to_state : String) : Bool × String :=
  match lookupD m.transitions m.current_state with
  | none => (false, "No transitions defined from state: " ++ m.current_state)
  | some ts => scanCandidates m.state_variables to_state ts

/-- `Mode.transition_to`, returning the updated mode, the boolean result,
and the notifications emitted. On success the history entry is appended
before `current_state` is updated, while the `"state_changed"` payload
reads `current_state` after the update (as the source does). -/
def Mode.transition_to (m : Mode) (to_state : String) (now : Nat) :
    Mode × Bool × List ModeEvent :=
  let res := m.can_transition_to to_state
  if res.1 = false then
    (m, false, [⟨"transition_failed", [("message", .v (.vStr res.2))]⟩])
  else
    let m1 :=
      { m with history := m.history ++ [HistEntry.mk m.current_state to_state now] }
    let m2 := { m1 with current_state := to_state }
    (m2, true,
      [⟨"state_changed",
        [("from_state", .v (.vStr m2.current_state)),
         ("to_state", .v (.vStr to_state))]⟩])

/-- `Mode.set_state_variable`: unconditional dict assignment plus a
`"variable_changed"` notification. -/
def Mode.set_state_variable (m : Mode) (name : String) (value : Value) :
    Mode × List ModeEvent :=
  ({ m with state_variables := setD m.state_variables name value },
   [⟨"variable_changed", [("name", .v (.vStr name)), ("value", .v value)]⟩])

/-- One entry of `Device.command_history`:
`{'command': ..., 'params': ..., 'timestamp': ...}`. -/
structure CmdEntry where
  command : String
  params : Dict Value
  timestamp : Nat
deriving DecidableEq, Repr

/-- The mutable state of `Device` (src/device.py `__init__`), minus the
observer list. -/
structure Device where
  device_id : String
  device_type : String
  name : String
  ip_address : String
  port : Nat
  is_connected : Bool
  current_mode : Option String
  available_modes : List String
  command_history : List CmdEntry
  last_command_time : Option Nat
  status : String
  error_count : Nat
  last_error : Option String
  connection_attempts : Nat
  max_connection_attempts : Nat
  reconnect_delay : Nat
  last_heartbeat : Option Nat
  heartbeat_interval : Nat
deriving DecidableEq, Repr

/-- `Device.__init__`: disconnected, empty history, zero attempts, and the
fixed default budgets (`max_connection_attempts = 3`,
`reconnect_delay = 5`, `heartbeat_interval = 30`). -/
def mkDevice (device_id device_type name ip_address : String) (port : Nat) :
    Device :=
  { device_id := device_id
    device_type := device_type
    name := name
    ip_address := ip_address
    port := port
    is_connected := false
    current_mode := none
    available_modes := []
    command_history := []
    last_command_time := none
    status := "disconnected"
    error_count := 0
    last_error := none
    connection_attempts := 0
    max_connection_attempts := 3
    reconnect_delay := 5
    last_heartbeat := none
    heartbeat_interval := 30 }

/-- `Device.connect`. Modelled from the spec: the transport-level
connection attempt is missing from src/device.py (only the placeholder
comment "Connection logic would go here" stands where it belongs), so per
the spec's transport-collaborator contract its outcome is passed in as
`outcome` (`true` = success) with `err` the fault's message. Returns the
updated device, the boolean result, and whether a connection attempt was
performed at all. -/
def Device.connect (dv : Device) (outcome : Bool) (err : String) (now : Nat) :
    Device × Bool × Bool :=
  if dv.max_connection_attempts ≤ dv.connection_attempts then
    ({ dv with status := "connection_failed" }, false, false)
  else if outcome then
    ({ dv with
       is_connected := true
       status := "connected"
       connection_attempts := 0
       last_heartbeat := some now }, true, true)
  else
    ({ dv with
       connection_attempts := dv.connection_attempts + 1
       last_error := some err
       status := "connection_error" }, false, true)

/-- `connect` iterated `n` times with a failing outcome each time. -/
def connectFailN (dv : Device) (err : String) (now : Nat) : Nat → Device
  | 0 => dv
  | n + 1 => ((connectFailN dv err now n).connect false err now).1

/-- `Device.send_command`. In src/device.py the body of the `try` block
only appends to `command_history` and stamps the clock (the transport call
is the placeholder comment "Command sending logic would go here"), so it
cannot raise and the `except` branch is unreachable. -/
def Device.send_command (dv : Device) (command : String) (params : Dict Value)
    (now : Nat) : Device × Bool :=
  if dv.is_connected = false then
    ({ dv with status := "not_connected" }, false)
  else
    ({ dv with
       command_history := dv.command_history ++ [CmdEntry.mk command params now]
       last_command_time := some now
       status := "command_sent" }, true)

/-- Python `isinstance(value, expected_type)` on the modelled values:
`bool` is a subclass of `int`; `int` is not an instance of `float`. -/
def pyIsInstance : Value → PType → Bool
  | .vBool _, .tBool => true
  | .vBool _, .tInt => true
  | .vInt _, .tInt => true
  | .vFloat _, .tFloat => true
  | .vStr _, .tStr => true
  | _, _ => false

/-- The declared contract and retry policy of `Command`
(src/command.py `__init__`). -/
structure Command where
  command_id : String
  name : String
  description : String
  parameters : Dict Value
  required_parameters : List String
  parameter_types : Dict PType
  parameter_ranges : Dict (Value × Value)
  execution_timeout : Nat
  retry_count : Nat
  retry_delay : Nat
deriving DecidableEq, Repr

/-- `Command.__init__`: empty contract, `execution_timeout = 5`,
`retry_count = 3`, `retry_delay = 1`. -/
def mkCommand (command_id name description : String) (parameters : Dict Value) :
    Command :=
  { command_id := command_id
    name := name
    description := description
    parameters := parameters
    required_parameters := []
    parameter_types := []
    parameter_ranges := []
    execution_timeout := 5
    retry_count := 3
    retry_delay := 1 }

/-- The required-parameter loop of `validate_parameters`
(src/command.py:35-37). -/
def checkRequired (params : Dict Value) : List String → Option String
  | [] => none
  | p :: rest =>
    if (lookupD params p).isSome then checkRequired params rest
    else some ("Missing required parameter: " ++ p)

/-- The type-check loop of `validate_parameters` (src/command.py:40-44),
iterating over the supplied parameters in insertion order. -/
def checkTypes (types : Dict PType) : Dict Value → Option String
  | [] => none
  | (p, v) :: rest =>
    match lookupD types p with
    | some ty =>
      if pyIsInstance v ty then checkTypes types rest
      else some ("Invalid type for parameter " ++ p ++ ": expected " ++ ty.name)
    | none => checkTypes types rest

/-- The message of a failed range check (src/command.py:51). -/
def rangeMsg (p : String) (v lo hi : Value) : String :=
  "Parameter " ++ p ++ " out of range: " ++ pyStr lo ++ " <= " ++ pyStr v
    ++ " <= " ++ pyStr hi

/-- The range-check loop of `validate_parameters` (src/command.py:47-51).
Python evaluates `min_val <= value` first and `value <= max_val` only when
the first holds; comparing a string against a number raises `TypeError`,
modelled as `Except.error`. -/
def checkRanges (ranges : Dict (Value × Value)) :
    Dict Value → Except Unit (Option String)
  | [] => .ok none
  | (p, v) :: rest =>
    match lookupD ranges p with
    | some (lo, hi) =>
      match pyLe lo v with
      | none => .error ()
      | some false => .ok (some (rangeMsg p v lo hi))
      | some true =>
        match pyLe v hi with
        | none => .error ()
        | some false => .ok (some (rangeMsg p v lo hi))
        | some true => checkRanges ranges rest
    | none => checkRanges ranges rest

/-- `Command.validate_parameters`: required check, then type check, then
range check, first failure short-circuiting; an uncaught `TypeError` from
a range comparison propagates as `Except.error`. -/
def Command.validate_parameters (c : Command) (params : Dict Value) :
    Except Unit (Bool × String) :=
  match checkRequired params c.required_parameters with
  | some msg => .ok (false, msg)
  | none =>
    match checkTypes c.parameter_types params with
    | some msg => .ok (false, msg)
    | none =>
      match checkRanges c.parameter_ranges params with
      | .error e => .error e
      | .ok (some msg) => .ok (false, msg)
      | .ok none => .ok (true, "Parameters valid")

/-- One observable step of `Command.execute`: performing the underlying
action on a given (1-based) attempt, sleeping `retry_delay` seconds, or a
`notify_observers(status, result)` broadcast. -/
inductive ExecEvent where
  | attemptAction : Nat → ExecEvent
  | sleep : Nat → ExecEvent
  | notify : String → Payload → ExecEvent
deriving DecidableEq, Repr

/-- The `result` dict built by a successful attempt
(src/command.py:67-73), with `attempt` the 1-based attempt number. -/
def attemptResult (c : Command) (d : Device) (params : Dict Value)
    (now : Nat) (k : Nat) : Payload :=
  [("command_id", .v (.vStr c.command_id)),
   ("device_id", .v (.vStr d.device_id)),
   ("parameters", .d params),
   ("timestamp", .v (.vInt now)),
   ("attempt", .v (.vInt k))]

/-- The `error_result` dict built on the final failing attempt
(src/command.py:82-89), with `attempts` the 1-based attempt number. -/
def errorResult (c : Command) (d : Device) (params : Dict Value)
    (msg : String) (now : Nat) (k : Nat) : Payload :=
  [("error", .v (.vStr msg)),
   ("command_id", .v (.vStr c.command_id)),
   ("device_id", .v (.vStr d.device_id)),
   ("parameters", .d params),
   ("timestamp", .v (.vInt now)),
   ("attempts", .v (.vInt k))]

/-- The retry loop of `Command.execute` (src/command.py:64-91). Modelled
from the spec: the underlying action is missing from src/command.py (the
placeholder comment "Command execution logic would go here"), so whether
the action of the k-th attempt faults is supplied by `fault` and the
fault's `str(e)` by `ferr`. `fuel` is the number of loop iterations left
(initially `retry_count`) and `attempt` the 0-based loop counter; a
`fuel = 0` start models `range(retry_count)` being empty, in which case
the Python function falls through and returns `None`. -/
def execAttempts (c : Command) (d : Device) (params : Dict Value)
    (fault : Nat → Bool) (ferr : Nat → String) (now : Nat) :
    Nat → Nat → Option (Bool × Payload) × List ExecEvent
  | 0, _ => (none, [])
  | fuel + 1, attempt =>
    if fault (attempt + 1) then
      if fuel = 0 then
        let err := errorResult c d params (ferr (attempt + 1)) now (attempt + 1)
        (some (false, err), [.attemptAction (attempt + 1), .notify "error" err])
      else
        let rest := execAttempts c d params fault ferr now fuel (attempt + 1)
        (rest.1, .attemptAction (attempt + 1) :: .sleep c.retry_delay :: rest.2)
    else
      let res := attemptResult c d params now (attempt + 1)
      (some (true, res), [.attemptAction (attempt + 1), .notify "success" res])

/-- `Command.execute`: validate, short-circuit with a
`"validation_error"` notification on failure, otherwise run the retry
loop. The returned event list is the trace of observable side effects;
the device is only ever read (for `device_id`), never mutated. -/
def Command.execute (c : Command) (d : Device) (params : Dict Value)
    (fault : Nat → Bool) (ferr : Nat → String) (now : Nat) :
    Except Unit (Option (Bool × Payload) × List ExecEvent) :=
  match c.validate_parameters params with
  | .error e => .error e
  | .ok (valid, msg) =>
    if valid = false then
      .ok (some (false, [("error", .v (.vStr msg))]),
        [.notify "validation_error" [("error", .v (.vStr msg))]])
    else
      .ok (execAttempts c d params fault ferr now c.retry_count 0)

/-! ### Concrete fixtures used by witnesses and counterexamples -/

/-- The spec's concrete scenario: a mode whose only transition goes
`initial → armed` guarded by `safety_off = True`, with `state_variables`
still empty. -/
def armedMode : Mode :=
  (mkMode "weapon" "Weapon mode" "demo mode").add_transition "initial" "armed"
    [("safety_off", .vBool true)]

/-- The same mode after `safety_off` has been set to `True`. -/
def readyMode : Mode :=
  { armedMode with state_variables := [("safety_off", .vBool true)] }

/-- A mode with two candidates from `initial` to `armed`: the first one
guarded by `safety_off = True` (which fails, `safety_off` being `False`),
the second one unconditional (which would succeed). -/
def doubleMode : Mode :=
  { mkMode "m" "M" "d" with
    transitions :=
      [("initial",
        [Transition.mk "armed" [("safety_off", .vBool true)],
         Transition.mk "armed" []])]
    state_variables := [("safety_off", .vBool false)] }

/-! ### Claims about `Mode.can_transition_to` and `Mode.transition_to` -/

/-- C1 counterexample: in the claim's own concrete scenario — transitions
`{"initial": [{to: "armed", conditions: {"safety_off": true}}]}` and empty
`state_variables` — `can_transition_to("armed")` returns `True` with
"Transition allowed", not `False` with "Condition not met": the condition
loop (src/mode.py:66-69) only tests conditions whose variable is present
in `state_variables`. -/
theorem absent_variable_condition_not_enforced_cex :
    armedMode.state_variables = [] ∧
    armedMode.can_transition_to "armed" = (true, "Transition allowed") :=
  ⟨rfl, rfl⟩

/-- C1 (amended): a condition naming a variable that is absent from
`state_variables` is skipped — it counts as satisfied, not as not-equal —
so condition checking behaves exactly as if every condition on an absent
variable were removed; in particular, in the concrete scenario with empty
`state_variables`, `can_transition_to("armed")` returns `True` with
"Transition allowed". -/
theorem absent_variable_condition_skipped :
    (∀ (vars conds : Dict Value),
      checkConditions vars conds =
        checkConditions vars
          (conds.filter (fun cv => (lookupD vars cv.1).isSome))) ∧
    armedMode.can_transition_to "armed" = (true, "Transition allowed") := by
  refine ⟨fun vars conds => ?_, rfl⟩
  induction conds with
  | nil => rfl
  | cons cv rest ih =>
    obtain ⟨c, v⟩ := cv
    rcases h : lookupD vars c with _ | w
    · simp [checkConditions, h, List.filter_cons, ih]
    · rcases he : pyEq w v with _ | _ <;>
        simp [checkConditions, h, he, List.filter_cons, ih]

/-- C3: on every successful `transition_to`, the appended history entry
records `from_state = current_state` as read before the update, while the
`"state_changed"` payload reads `current_state` after the update, so the
payload's `from_state` and `to_state` are both the target state. -/
theorem transition_to_success_payload :
    ∀ (m : Mode) (s : String) (now : Nat),
      (m.can_transition_to s).1 = true →
      m.transition_to s now =
        ({ m with
            history := m.history ++ [HistEntry.mk m.current_state s now]
            current_state := s },
         true,
         [ModeEvent.mk "state_changed"
            [("from_state", Field.v (Value.vStr s)),
             ("to_state", Field.v (Value.vStr s))]]) := by
  intro m s now h
  simp [Mode.transition_to, h]

/-- C3 witness: the armed-mode scenario with `safety_off = True`. -/
theorem transition_to_success_payload_witness :
    readyMode.transition_to "armed" 7 =
      ({ readyMode with
          history := [HistEntry.mk "initial" "armed" 7]
          current_state := "armed" },
       true,
       [ModeEvent.mk "state_changed"
          [("from_state", Field.v (Value.vStr "armed")),
           ("to_state", Field.v (Value.vStr "armed"))]]) :=
  transition_to_success_payload readyMode "armed" 7 (by rfl)

/-- C8: `transition_to` returns `False` exactly when `can_transition_to`
reports failure, in which case the mode is unchanged and only a
`"transition_failed"` notification carrying the failure message is
emitted; when it returns `True`, `current_state` becomes the target state
and exactly one entry is appended to the history. -/
theorem transition_to_failure_success_spec :
    ∀ (m : Mode) (s : String) (now : Nat),
      ((m.transition_to s now).2.1 = false ↔ (m.can_transition_to s).1 = false) ∧
      ((m.can_transition_to s).1 = false →
        m.transition_to s now =
          (m, false,
           [ModeEvent.mk "transition_failed"
              [("message", Field.v (Value.vStr (m.can_transition_to s).2))]])) ∧
      ((m.transition_to s now).2.1 = true →
        (m.transition_to s now).1.current_state = s ∧
        (m.transition_to s now).1.history =
          m.history ++ [HistEntry.mk m.current_state s now]) := by
  intro m s now
  cases hb : (m.can_transition_to s).1 <;> simp [Mode.transition_to, hb]

/-- C8 witness: a transition to a state with no matching candidate fails,
leaves the mode untouched and emits the `"transition_failed"` event. -/
theorem transition_to_failure_success_spec_witness :
    armedMode.transition_to "nope" 3 =
      (armedMode, false,
       [ModeEvent.mk "transition_failed"
          [("message",
            Field.v (Value.vStr "No transition defined to state: nope"))]]) :=
  (transition_to_failure_success_spec armedMode "nope" 3).2.1 (by rfl)

/-- Candidates whose `to_state` does not match are skipped by the scan. -/
theorem scanCandidates_skip_no_match (vars : Dict Value) (s : String) :
    ∀ (l₁ l₂ : List Transition),
      (∀ t' ∈ l₁, t'.to_state ≠ s) →
      scanCandidates vars s (l₁ ++ l₂) = scanCandidates vars s l₂ := by
  intro l₁ l₂ h
  induction l₁ with
  | nil => rfl
  | cons t rest ih =>
    have ht : (t.to_state == s) = false := by
      simpa using h t (List.mem_cons_self t rest)
    simp only [List.cons_append, scanCandidates, ht, Bool.false_eq_true,
      if_false]
    exact ih (fun t' h' => h t' (List.mem_cons_of_mem t h'))

/-- C9: `can_transition_to` decides using only the first candidate (in
declaration order) whose `to_state` matches: whatever follows it — in
particular a later candidate with the same `to_state` whose conditions
all hold — does not influence the result. -/
theorem can_transition_to_first_match :
    ∀ (m : Mode) (s : String) (l₁ l₂ : List Transition) (t : Transition),
      lookupD m.transitions m.current_state = some (l₁ ++ t :: l₂) →
      (∀ t' ∈ l₁, t'.to_state ≠ s) →
      t.to_state = s →
      m.can_transition_to s = checkConditions m.state_variables t.conditions := by
  intro m s l₁ l₂ t hl hno ht
  simp only [Mode.can_transition_to, hl]
  rw [scanCandidates_skip_no_match m.state_variables s l₁ (t :: l₂) hno]
  simp [scanCandidates, ht]

/-- C9 witness: in `doubleMode` the first `initial → armed` candidate has
a failing condition and the later unconditional candidate to the same
state is ignored, so the transition is refused. -/
theorem can_transition_to_first_match_witness :
    doubleMode.can_transition_to "armed" =
      (false, "Condition not met: safety_off = True") := by
  have h := can_transition_to_first_match doubleMode "armed" []
    [Transition.mk "armed" []]
    (Transition.mk "armed" [("safety_off", .vBool true)])
    (by rfl) (by simp) (by rfl)
  rw [h]
  rfl

/-! ### Claim about the `add_command` / `remove_command` invariant -/

/-- A call to `Mode.add_command` or `Mode.remove_command`. -/
inductive CmdOp where
  | add : String → Bool → CmdOp
  | remove : String → CmdOp
deriving DecidableEq, Repr

/-- Apply a sequence of command-list operations to a mode. -/
def applyOps (m : Mode) : List CmdOp → Mode
  | [] => m
  | .add c r :: rest => applyOps (m.add_command c r) rest
  | .remove c :: rest => applyOps (m.remove_command c) rest

theorem removeFirst_subset :
    ∀ (l : List String) (c x : String), x ∈ removeFirst l c → x ∈ l := by
  intro l c x
  induction l with
  | nil => simp [removeFirst]
  | cons a rest ih =>
    by_cases h : (a == c) = true
    · simp only [removeFirst, h, if_true]
      exact fun hx => List.mem_cons_of_mem a hx
    · simp only [removeFirst, h, Bool.false_eq_true, if_false, List.mem_cons]
      rintro (hx | hx)
      · exact Or.inl hx
      · exact Or.inr (ih hx)

theorem removeFirst_not_mem :
    ∀ (l : List String) (c : String), l.Nodup → c ∉ removeFirst l c := by
  intro l c
  induction l with
  | nil => simp [removeFirst]
  | cons a rest ih =>
    intro hnd
    by_cases h : (a == c) = true
    · simp only [removeFirst, h, if_true]
      have ha : a = c := by simpa using h
      subst ha
      exact (List.nodup_cons.mp hnd).1
    · simp only [removeFirst, h, Bool.false_eq_true, if_false, List.mem_cons]
      rintro (hx | hx)
      · exact h (by simpa using hx.symm)
      · exact ih (List.nodup_cons.mp hnd).2 hx

theorem removeFirst_mem_of_ne :
    ∀ (l : List String) (c x : String), x ∈ l → x ≠ c → x ∈ removeFirst l c := by
  intro l c x
  induction l with
  | nil => simp
  | cons a rest ih =>
    intro hx hne
    by_cases h : (a == c) = true
    · simp only [removeFirst, h, if_true]
      rcases List.mem_cons.mp hx with he | hx'
      · exact absurd (he.trans (by simpa using h)) hne
      · exact hx'
    · simp only [removeFirst, h, Bool.false_eq_true, if_false, List.mem_cons]
      rcases List.mem_cons.mp hx with he | hx'
      · exact Or.inl he
      · exact Or.inr (ih hx' hne)

theorem removeFirst_nodup :
    ∀ (l : List String) (c : String), l.Nodup → (removeFirst l c).Nodup := by
  intro l c
  induction l with
  | nil => simp [removeFirst]
  | cons a rest ih =>
    intro hnd
    obtain ⟨ha, hrest⟩ := List.nodup_cons.mp hnd
    by_cases h : (a == c) = true
    · simpa only [removeFirst, h, if_true] using hrest
    · simp only [removeFirst, h, Bool.false_eq_true, if_false, List.nodup_cons]
      exact ⟨fun hx => ha (removeFirst_subset rest c a hx), ih hrest⟩

/-- The invariant maintained by the command-list operations:
`required_commands` is a subset of `allowed_commands` and both lists are
duplicate-free. -/
def goodMode (m : Mode) : Prop :=
  (∀ x ∈ m.required_commands, x ∈ m.allowed_commands) ∧
    m.allowed_commands.Nodup ∧ m.required_commands.Nodup

theorem goodMode_add (m : Mode) (c : String) (r : Bool) (h : goodMode m) :
    goodMode (m.add_command c r) := by
  obtain ⟨hsub, hand, hrnd⟩ := h
  unfold Mode.add_command
  by_cases hc : c ∈ m.allowed_commands
  · simpa [hc] using ⟨hsub, hand, hrnd⟩
  · have hcr : c ∉ m.required_commands := fun hx => hc (hsub c hx)
    simp only [hc, if_false]
    refine ⟨?_, ?_, ?_⟩
    · intro x hx
      cases r with
      | true =>
        simp only [if_true] at hx
        rcases List.mem_append.mp hx with hx | hx
        · exact List.mem_append.mpr (Or.inl (hsub x hx))
        · exact List.mem_append.mpr (Or.inr hx)
      | false =>
        simp only [Bool.false_eq_true, if_false] at hx
        exact List.mem_append.mpr (Or.inl (hsub x hx))
    · simpa [List.nodup_append] using ⟨hand, hc⟩
    · cases r with
      | true =>
        simpa [List.nodup_append] using ⟨hrnd, hcr⟩
      | false => simpa using hrnd

theorem goodMode_remove (m : Mode) (c : String) (h : goodMode m) :
    goodMode (m.remove_command c) := by
  obtain ⟨hsub, hand, hrnd⟩ := h
  unfold Mode.remove_command
  refine ⟨?_, ?_, ?_⟩
  · intro x hx
    simp only at hx ⊢
    have hxr : x ∈ m.required_commands := by
      by_cases hcr : c ∈ m.required_commands
      · simp only [hcr, if_true] at hx
        exact removeFirst_subset _ _ _ hx
      · simpa [hcr] using hx
    have hxc : x ≠ c := by
      intro he
      subst he
      by_cases hcr : x ∈ m.required_commands
      · simp only [hcr, if_true] at hx
        exact removeFirst_not_mem _ _ hrnd hx
      · exact hcr hxr
    have hxa : x ∈ m.allowed_commands := hsub x hxr
    by_cases hca : c ∈ m.allowed_commands
    · simp only [hca, if_true]
      exact removeFirst_mem_of_ne _ _ _ hxa hxc
    · simpa [hca] using hxa
  · by_cases hca : c ∈ m.allowed_commands
    · simpa [hca] using removeFirst_nodup _ c hand
    · simpa [hca] using hand
  · by_cases hcr : c ∈ m.required_commands
    · simpa [hcr] using removeFirst_nodup _ c hrnd
    · simpa [hcr] using hrnd

theorem goodMode_applyOps (ops : List CmdOp) :
    ∀ (m : Mode), goodMode m → goodMode (applyOps m ops) := by
  induction ops with
  | nil => exact fun m h => h
  | cons op rest ih =>
    intro m h
    cases op with
    | add c r => exact ih _ (goodMode_add m c r h)
    | remove c => exact ih _ (goodMode_remove m c h)

/-- C10: over every sequence of `add_command` / `remove_command` calls
starting from a freshly constructed mode, `required_commands` stays a
subset of `allowed_commands`; `add_command` on an already-allowed command
is a complete no-op (even with `required = true`); and `remove_command`
removes the command from both lists. -/
theorem required_subset_allowed_invariant :
    ∀ (ops : List CmdOp) (mid nm ds : String),
      (∀ x ∈ (applyOps (mkMode mid nm ds) ops).required_commands,
         x ∈ (applyOps (mkMode mid nm ds) ops).allowed_commands) ∧
      (∀ (m : Mode) (c : String) (r : Bool),
         c ∈ m.allowed_commands → m.add_command c r = m) ∧
      (∀ c : String,
         c ∉ ((applyOps (mkMode mid nm ds) ops).remove_command c).allowed_commands ∧
         c ∉ ((applyOps (mkMode mid nm ds) ops).remove_command c).required_commands) := by
  intro ops mid nm ds
  have hg : goodMode (applyOps (mkMode mid nm ds) ops) :=
    goodMode_applyOps ops (mkMode mid nm ds) (by exact ⟨by simp [mkMode], by simp [mkMode], by simp [mkMode]⟩)
  obtain ⟨hsub, hand, hrnd⟩ := hg
  refine ⟨hsub, ?_, ?_⟩
  · intro m c r hc
    simp [Mode.add_command, hc]
  · intro c
    constructor
    · simp only [Mode.remove_command]
      by_cases hca : c ∈ (applyOps (mkMode mid nm ds) ops).allowed_commands
      · simpa [hca] using removeFirst_not_mem _ c hand
      · simp [hca]
    · simp only [Mode.remove_command]
      by_cases hcr : c ∈ (applyOps (mkMode mid nm ds) ops).required_commands
      · simpa [hcr] using removeFirst_not_mem _ c hrnd
      · simp [hcr]

/-- C10 witness: after `add("a", required)`, a second (no-op) `add("a")`,
`add("b")` and `remove("b")`, the required command `"a"` is still
allowed. -/
theorem required_subset_allowed_invariant_witness :
    "a" ∈ (applyOps (mkMode "m" "M" "d")
      [CmdOp.add "a" true, CmdOp.add "a" true, CmdOp.add "b" false,
       CmdOp.remove "b"]).allowed_commands :=
  (required_subset_allowed_invariant
    [CmdOp.add "a" true, CmdOp.add "a" true, CmdOp.add "b" false,
     CmdOp.remove "b"] "m" "M" "d").1 "a" (by decide)

/-! ### Claims about `Device.connect` and `Device.send_command` -/

/-- A freshly constructed device for the connection scenarios. -/
def demoDevice : Device := mkDevice "dev1" "udp" "Demo" "127.0.0.1" 9000

/-- A freshly constructed, already connected device. -/
def connDevice : Device :=
  { mkDevice "dev3" "udp" "Conn" "127.0.0.1" 9001 with is_connected := true }

/-- Iterating `connect` with failing outcomes while the budget lasts just
accumulates `connection_attempts` and leaves the last failure's status and
error behind. -/
theorem connectFailN_spec :
    ∀ (k : Nat) (dv : Device) (err : String) (now : Nat),
      0 < k → dv.connection_attempts + k ≤ dv.max_connection_attempts →
      connectFailN dv err now k =
        { dv with
          connection_attempts := dv.connection_attempts + k
          last_error := some err
          status := "connection_error" } := by
  intro k
  induction k with
  | zero => intro dv err now h _; exact absurd h (by omega)
  | succ n ih =>
    intro dv err now _ hle
    by_cases hn : 0 < n
    · have hrec := ih dv err now hn (by omega)
      simp only [connectFailN, Device.connect, Bool.false_eq_true, if_false, hrec]
      rw [if_neg (show ¬ dv.max_connection_attempts ≤ dv.connection_attempts + n
        by omega)]
      rfl
    · have hn0 : n = 0 := by omega
      subst hn0
      have hguard :
          ¬ (dv.max_connection_attempts ≤ dv.connection_attempts) := by omega
      simp only [connectFailN, Device.connect, if_neg hguard,
        Bool.false_eq_true, if_false]

/-- C2 counterexample: a fresh device whose transport-level connect fails
on every call has status `"connection_error"` — not
`"connection_failed"` — after exactly `max_connection_attempts` calls;
`"connection_failed"` only appears on the next call, which hits the
exhausted budget. -/
theorem connect_exhaustion_status_cex :
    (connectFailN demoDevice "connection refused" 5
        demoDevice.max_connection_attempts).status = "connection_error" ∧
    (connectFailN demoDevice "connection refused" 5
        demoDevice.max_connection_attempts).status ≠ "connection_failed" := by
  exact ⟨by decide, by decide⟩

/-- C2 (amended): for a fresh device whose transport-level connect attempt
fails on every call, after exactly `max_connection_attempts` calls the
status is `"connection_error"` (the last failure's label), `is_connected`
is false and the attempt budget is used up; a subsequent `connect` call
performs no further connection attempt whatever its outcome would be,
returns false, and sets status to `"connection_failed"` while leaving
`connection_attempts` and `is_connected` (and everything else) unchanged. -/
theorem connect_attempt_budget_exhaustion :
    ∀ (dv : Device) (err : String) (now : Nat),
      dv.connection_attempts = 0 → dv.is_connected = false →
      0 < dv.max_connection_attempts →
      (connectFailN dv err now dv.max_connection_attempts).status
          = "connection_error" ∧
      (connectFailN dv err now dv.max_connection_attempts).is_connected = false ∧
      (connectFailN dv err now dv.max_connection_attempts).connection_attempts
          = dv.max_connection_attempts ∧
      (∀ (outcome : Bool) (err2 : String) (now2 : Nat),
        (connectFailN dv err now dv.max_connection_attempts).connect outcome
            err2 now2 =
          ({ connectFailN dv err now dv.max_connection_attempts with
              status := "connection_failed" }, false, false)) := by
  intro dv err now h0 hc hm
  have hs := connectFailN_spec dv.max_connection_attempts dv err now hm (by omega)
  refine ⟨by rw [hs], by rw [hs]; exact hc, by rw [hs]; simp [h0], ?_⟩
  intro outcome err2 now2
  have hguard :
      (connectFailN dv err now dv.max_connection_attempts).max_connection_attempts ≤
        (connectFailN dv err now dv.max_connection_attempts).connection_attempts := by
    rw [hs]; simp [h0]
  simp only [Device.connect, if_pos hguard]

/-- C2 witness: a concrete fresh device, its three failing calls, and the
attempt-free fourth call. -/
theorem connect_attempt_budget_exhaustion_witness :
    (connectFailN (mkDevice "dev2" "usb" "Wand" "10.0.0.1" 8) "timed out" 0 3).connect
        true "x" 1 =
      ({ connectFailN (mkDevice "dev2" "usb" "Wand" "10.0.0.1" 8) "timed out" 0 3 with
          status := "connection_failed" }, false, false) := by
  have h := connect_attempt_budget_exhaustion
    (mkDevice "dev2" "usb" "Wand" "10.0.0.1" 8) "timed out" 0 rfl rfl (by decide)
  exact h.2.2.2 true "x" 1

/-- C7: `send_command` is gated solely by `is_connected`: when
disconnected it returns false with status `"not_connected"`, touching
nothing else (in particular `command_history`, `last_command_time` and
`error_count`); when connected it appends exactly one
`{command, params, timestamp}` entry, stamps `last_command_time`, sets
status `"command_sent"` and returns true. -/
theorem send_command_spec :
    ∀ (dv : Device) (cmd : String) (params : Dict Value) (now : Nat),
      (dv.is_connected = false →
        dv.send_command cmd params now =
          ({ dv with status := "not_connected" }, false)) ∧
      (dv.is_connected = true →
        dv.send_command cmd params now =
          ({ dv with
              command_history := dv.command_history ++ [CmdEntry.mk cmd params now]
              last_command_time := some now
              status := "command_sent" }, true)) := by
  intro dv cmd params now
  cases hb : dv.is_connected <;> simp [Device.send_command, hb]

/-- C7 witness: one command sent on a connected device. -/
theorem send_command_spec_witness :
    connDevice.send_command "fire" [("power", Value.vInt 2)] 11 =
      ({ connDevice with
          command_history := [CmdEntry.mk "fire" [("power", Value.vInt 2)] 11]
          last_command_time := some 11
          status := "command_sent" }, true) :=
  (send_command_spec connDevice "fire" [("power", Value.vInt 2)] 11).2 rfl

/-! ### Claims about `Command.execute` -/

instance {e a : Type} [DecidableEq e] [DecidableEq a] : DecidableEq (Except e a) :=
  fun x y =>
    match x, y with
    | .ok u, .ok v =>
      if h : u = v then .isTrue (by rw [h]) else .isFalse (by simp [h])
    | .error u, .error v =>
      if h : u = v then .isTrue (by rw [h]) else .isFalse (by simp [h])
    | .ok _, .error _ => .isFalse (by simp)
    | .error _, .ok _ => .isFalse (by simp)

/-- The rational 3/2 (the Python float `1.5`), given in lowest terms so
that concrete evaluations reduce. -/
def threeHalves : Rat := ⟨3, 2, by decide, by decide⟩

/-- The spec's concrete command: one required parameter `value` ranged
over the inclusive interval `[0, 1]`. -/
def valueCommand : Command :=
  { mkCommand "set_value" "Set value" "demo command" [] with
    required_parameters := ["value"]
    parameter_ranges := [("value", (Value.vInt 0, Value.vInt 1))] }

/-- C5: whenever validation fails, `execute` performs no underlying
action and no retry attempt: its whole side-effect trace is a single
`"validation_error"` notification, it returns false with the validation
error message as payload, and the device is untouched (the source's
`execute` only ever reads `device.device_id`; the event trace, which is
the complete record of its effects, contains no device operation). -/
theorem execute_validation_failure :
    ∀ (c : Command) (d : Device) (params : Dict Value) (fault : Nat → Bool)
      (ferr : Nat → String) (now : Nat) (msg : String),
      c.validate_parameters params = .ok (false, msg) →
      c.execute d params fault ferr now =
        .ok (some (false, [("error", Field.v (Value.vStr msg))]),
          [ExecEvent.notify "validation_error"
            [("error", Field.v (Value.vStr msg))]]) := by
  intro c d params fault ferr now msg h
  simp [Command.execute, h]

/-- C5 witness: the spec's concrete scenario, `value = 1.5` against the
range `[0, 1]`, even with a never-faulting action available. -/
theorem execute_validation_failure_witness :
    valueCommand.execute demoDevice [("value", Value.vFloat threeHalves)]
        (fun _ => false) (fun _ => "") 0 =
      .ok (some (false, [("error", Field.v (Value.vStr
            "Parameter value out of range: 0 <= 1.5 <= 1"))]),
        [ExecEvent.notify "validation_error"
          [("error", Field.v (Value.vStr
            "Parameter value out of range: 0 <= 1.5 <= 1"))]]) :=
  execute_validation_failure valueCommand demoDevice
    [("value", Value.vFloat threeHalves)] (fun _ => false) (fun _ => "") 0
    "Parameter value out of range: 0 <= 1.5 <= 1" (by decide)

/-- `n` consecutive attempts starting after offset `a`, each performed
and followed by a `retry_delay` sleep (the shape of the retry loop's
trace before its final attempt). -/
def retryTraceFrom (delay : Nat) : Nat → Nat → List ExecEvent
  | _, 0 => []
  | a, n + 1 =>
    ExecEvent.attemptAction (a + 1) :: ExecEvent.sleep delay ::
      retryTraceFrom delay (a + 1) n

theorem execAttempts_success :
    ∀ (c : Command) (d : Device) (params : Dict Value) (fault : Nat → Bool)
      (ferr : Nat → String) (now : Nat) (fuel attempt k : Nat),
      attempt + 1 ≤ k → k ≤ attempt + fuel →
      (∀ i, attempt + 1 ≤ i → i < k → fault i = true) → fault k = false →
      execAttempts c d params fault ferr now fuel attempt =
        (some (true, attemptResult c d params now k),
         retryTraceFrom c.retry_delay attempt (k - (attempt + 1)) ++
           [ExecEvent.attemptAction k,
            ExecEvent.notify "success" (attemptResult c d params now k)]) := by
  intro c d params fault ferr now fuel
  induction fuel with
  | zero => intro attempt k h1 h2 _ _; exact absurd h2 (by omega)
  | succ m ih =>
    intro attempt k h1 h2 hpre hk
    by_cases hke : k = attempt + 1
    · subst hke
      have hf : fault (attempt + 1) = false := hk
      simp [execAttempts, hf, retryTraceFrom]
    · have hlt : attempt + 1 < k := by omega
      have hf : fault (attempt + 1) = true := hpre (attempt + 1) (by omega) hlt
      have hm : ¬ (m = 0) := by omega
      have hrec := ih (attempt + 1) k (by omega) (by omega)
        (fun i hi1 hi2 => hpre i (by omega) hi2) hk
      simp only [execAttempts, hf, if_true, hm, if_false, hrec]
      have harith : k - (attempt + 1) = (k - (attempt + 1 + 1)) + 1 := by omega
      rw [harith]
      simp [retryTraceFrom]

theorem execAttempts_allfail :
    ∀ (c : Command) (d : Device) (params : Dict Value) (fault : Nat → Bool)
      (ferr : Nat → String) (now : Nat) (fuel attempt : Nat),
      1 ≤ fuel →
      (∀ i, attempt + 1 ≤ i → i ≤ attempt + fuel → fault i = true) →
      execAttempts c d params fault ferr now fuel attempt =
        (some (false,
           errorResult c d params (ferr (attempt + fuel)) now (attempt + fuel)),
         retryTraceFrom c.retry_delay attempt (fuel - 1) ++
           [ExecEvent.attemptAction (attempt + fuel),
            ExecEvent.notify "error"
              (errorResult c d params (ferr (attempt + fuel)) now
                (attempt + fuel))]) := by
  intro c d params fault ferr now fuel
  induction fuel with
  | zero => intro attempt h _; exact absurd h (by omega)
  | succ m ih =>
    intro attempt _ hall
    have hf : fault (attempt + 1) = true := hall (attempt + 1) (by omega) (by omega)
    by_cases hm : m = 0
    · subst hm
      simp [execAttempts, hf, retryTraceFrom]
    · have hrec := ih (attempt + 1) (by omega)
        (fun i hi1 hi2 => hall i (by omega) (by omega))
      simp only [execAttempts, hf, if_true]
      rw [if_neg hm, hrec]
      have h1 : attempt + 1 + m = attempt + (m + 1) := by omega
      rw [h1]
      have h2 : m + 1 - 1 = (m - 1) + 1 := by omega
      rw [show (m + 1 - 1 : Nat) = (m - 1) + 1 from h2]
      simp [retryTraceFrom]

/-- C6: with the underlying action succeeding or faulting per attempt and
the parameters valid, `execute` succeeding first on attempt `k`
(`1 ≤ k ≤ retry_count`) returns true with `attempt = k` in its payload
and a `"success"` notification, while all `retry_count` attempts faulting
returns false with `attempts = retry_count` and an `"error"`
notification; in both traces a `retry_delay` sleep separates consecutive
attempts and none follows the last. -/
theorem execute_retry_spec :
    ∀ (c : Command) (d : Device) (params : Dict Value) (fault : Nat → Bool)
      (ferr : Nat → String) (now : Nat) (vmsg : String) (k : Nat),
      c.validate_parameters params = .ok (true, vmsg) →
      ((1 ≤ k → k ≤ c.retry_count →
        (∀ i, 1 ≤ i → i < k → fault i = true) → fault k = false →
        c.execute d params fault ferr now =
          .ok (some (true, attemptResult c d params now k),
            retryTraceFrom c.retry_delay 0 (k - 1) ++
              [ExecEvent.attemptAction k,
               ExecEvent.notify "success" (attemptResult c d params now k)])) ∧
       (1 ≤ c.retry_count →
        (∀ i, 1 ≤ i → i ≤ c.retry_count → fault i = true) →
        c.execute d params fault ferr now =
          .ok (some (false,
              errorResult c d params (ferr c.retry_count) now c.retry_count),
            retryTraceFrom c.retry_delay 0 (c.retry_count - 1) ++
              [ExecEvent.attemptAction c.retry_count,
               ExecEvent.notify "error"
                 (errorResult c d params (ferr c.retry_count) now
                   c.retry_count)]))) := by
  intro c d params fault ferr now vmsg k hv
  constructor
  · intro hk1 hk2 hpre hk
    have h := execAttempts_success c d params fault ferr now c.retry_count 0 k
      (by omega) (by omega) (fun i hi1 hi2 => hpre i (by omega) hi2) hk
    simp [Command.execute, hv, h]
  · intro hrc hall
    have h := execAttempts_allfail c d params fault ferr now c.retry_count 0
      hrc (fun i hi1 hi2 => hall i (by omega) (by omega))
    rw [show (0 + c.retry_count : Nat) = c.retry_count from by omega] at h
    simp [Command.execute, hv, h]

/-- C6 witness: `retry_count = 3`, the action faulting on attempt 1 and
succeeding on attempt 2: one sleep between the two attempts, none after,
and `attempt = 2` reported. -/
theorem execute_retry_spec_witness :
    valueCommand.execute demoDevice [("value", Value.vInt 1)]
        (fun a => decide (a < 2)) (fun _ => "boom") 9 =
      .ok (some (true,
          attemptResult valueCommand demoDevice [("value", Value.vInt 1)] 9 2),
        [ExecEvent.attemptAction 1, ExecEvent.sleep 1, ExecEvent.attemptAction 2,
         ExecEvent.notify "success"
           (attemptResult valueCommand demoDevice [("value", Value.vInt 1)] 9 2)]) := by
  have h := (execute_retry_spec valueCommand demoDevice [("value", Value.vInt 1)]
    (fun a => decide (a < 2)) (fun _ => "boom") 9 "Parameters valid" 2
    (by decide)).1 (by decide) (by decide)
    (fun i hi1 hi2 => by
      have hi : i = 1 := by omega
      subst hi
      rfl)
    (by decide)
  exact h

/-! ### Claim about `Command.validate_parameters` -/

/-- A required parameter is missing from the supplied parameters. -/
def missingB (params : Dict Value) (p : String) : Bool :=
  (lookupD params p).isNone

/-- A supplied parameter has a declared type it is not an instance of. -/
def typeBadB (types : Dict PType) (pv : String × Value) : Bool :=
  match lookupD types pv.1 with
  | some ty => ! pyIsInstance pv.2 ty
  | none => false

/-- The type-check error message for a supplied parameter. -/
def typeMsgOf (types : Dict PType) (pv : String × Value) : String :=
  match lookupD types pv.1 with
  | some ty => "Invalid type for parameter " ++ pv.1 ++ ": expected " ++ ty.name
  | none => ""

/-- A supplied parameter has a declared range it does not pass cleanly
(out of range, or incomparable with the bounds). -/
def rangeBadB (ranges : Dict (Value × Value)) (pv : String × Value) : Bool :=
  match lookupD ranges pv.1 with
  | some (lo, hi) =>
    ! (pyLe lo pv.2 == some true && pyLe pv.2 hi == some true)
  | none => false

/-- The range-check error message for a supplied parameter. -/
def rangeMsgOf (ranges : Dict (Value × Value)) (pv : String × Value) : String :=
  match lookupD ranges pv.1 with
  | some (lo, hi) => rangeMsg pv.1 pv.2 lo hi
  | none => ""

/-- Some required parameter is absent from the supplied parameters. -/
def missingViolation (c : Command) (params : Dict Value) : Prop :=
  ∃ p, p ∈ c.required_parameters ∧ lookupD params p = none

/-- Some supplied parameter mismatches its declared type. -/
def typeViolation (c : Command) (params : Dict Value) : Prop :=
  ∃ pv, pv ∈ params ∧ ∃ ty, lookupD c.parameter_types pv.1 = some ty ∧
    pyIsInstance pv.2 ty = false

/-- Some supplied parameter with a declared range lies outside the
inclusive `[min, max]` interval (with the comparisons defined). -/
def rangeViolation (c : Command) (params : Dict Value) : Prop :=
  ∃ pv, pv ∈ params ∧ ∃ lo hi, lookupD c.parameter_ranges pv.1 = some (lo, hi) ∧
    (pyLe lo pv.2 = some false ∨
      (pyLe lo pv.2 = some true ∧ pyLe pv.2 hi = some false))

theorem missingB_true_iff (params : Dict Value) (p : String) :
    missingB params p = true ↔ lookupD params p = none := by
  simp [missingB, Option.isNone_iff_eq_none]

theorem typeBadB_true_iff (types : Dict PType) (pv : String × Value) :
    typeBadB types pv = true ↔
      ∃ ty, lookupD types pv.1 = some ty ∧ pyIsInstance pv.2 ty = false := by
  rcases ht : lookupD types pv.1 with _ | ty <;> simp [typeBadB, ht]

theorem rangeBadB_of_violation (ranges : Dict (Value × Value))
    (pv : String × Value) (lo hi : Value)
    (hl : lookupD ranges pv.1 = some (lo, hi))
    (hv : pyLe lo pv.2 = some false ∨
      (pyLe lo pv.2 = some true ∧ pyLe pv.2 hi = some false)) :
    rangeBadB ranges pv = true := by
  rcases hv with h1 | ⟨h1, h2⟩ <;> simp [rangeBadB, hl, h1]
  intro h
  simp [h] at h2

theorem checkRequired_eq (params : Dict Value) :
    ∀ l : List String,
      checkRequired params l =
        (l.find? (missingB params)).map
          (fun p => "Missing required parameter: " ++ p) := by
  intro l
  induction l with
  | nil => rfl
  | cons p rest ih =>
    rcases hl : lookupD params p with _ | v
    · simp [checkRequired, hl, List.find?_cons, missingB]
    · simp [checkRequired, hl, List.find?_cons, missingB, ih]

theorem checkTypes_eq (types : Dict PType) :
    ∀ l : Dict Value,
      checkTypes types l = (l.find? (typeBadB types)).map (typeMsgOf types) := by
  intro l
  induction l with
  | nil => rfl
  | cons pv rest ih =>
    obtain ⟨p, v⟩ := pv
    rcases ht : lookupD types p with _ | ty
    · simp [checkTypes, ht, List.find?_cons, typeBadB, ih]
    · by_cases hi : pyIsInstance v ty = true
      · simp [checkTypes, ht, hi, List.find?_cons, typeBadB, ih]
      · have hi' : pyIsInstance v ty = false := by
          cases h : pyIsInstance v ty
          · rfl
          · exact absurd h hi
        simp [checkTypes, ht, hi', List.find?_cons, typeBadB, typeMsgOf]

theorem checkRanges_ok (ranges : Dict (Value × Value)) :
    ∀ (l : Dict Value) (r : Option String),
      checkRanges ranges l = .ok r →
      r = (l.find? (rangeBadB ranges)).map (rangeMsgOf ranges) ∧
      (∀ pv, l.find? (rangeBadB ranges) = some pv →
        ∃ lo hi, lookupD ranges pv.1 = some (lo, hi) ∧
          (pyLe lo pv.2 = some false ∨
            (pyLe lo pv.2 = some true ∧ pyLe pv.2 hi = some false))) := by
  intro l
  induction l with
  | nil =>
    intro r h
    simp only [checkRanges, Except.ok.injEq] at h
    subst h
    simp
  | cons pv rest ih =>
    obtain ⟨p, v⟩ := pv
    intro r h
    rcases hr : lookupD ranges p with _ | lohi
    · have hb : rangeBadB ranges (p, v) = false := by simp [rangeBadB, hr]
      simp only [checkRanges, hr] at h
      obtain ⟨ih1, ih2⟩ := ih r h
      refine ⟨by rw [List.find?_cons_of_neg _ (by simp [hb])]; exact ih1, ?_⟩
      intro pv' hf
      rw [List.find?_cons_of_neg _ (by simp [hb])] at hf
      exact ih2 pv' hf
    · obtain ⟨lo, hi⟩ := lohi
      rcases h1 : pyLe lo v with _ | b1
      · simp [checkRanges, hr, h1] at h
      · cases b1 with
        | false =>
          simp only [checkRanges, hr, h1, Except.ok.injEq] at h
          subst h
          have hb : rangeBadB ranges (p, v) = true := by
            simp [rangeBadB, hr, h1]
          refine ⟨?_, ?_⟩
          · rw [List.find?_cons_of_pos _ hb]
            simp [rangeMsgOf, hr]
          · intro pv' hf
            rw [List.find?_cons_of_pos _ hb] at hf
            obtain rfl : (p, v) = pv' := by injection hf
            exact ⟨lo, hi, hr, Or.inl h1⟩
        | true =>
          rcases h2 : pyLe v hi with _ | b2
          · simp [checkRanges, hr, h1, h2] at h
          · cases b2 with
            | false =>
              simp only [checkRanges, hr, h1, h2, Except.ok.injEq] at h
              subst h
              have hb : rangeBadB ranges (p, v) = true := by
                simp [rangeBadB, hr, h1, h2]
              refine ⟨?_, ?_⟩
              · rw [List.find?_cons_of_pos _ hb]
                simp [rangeMsgOf, hr]
              · intro pv' hf
                rw [List.find?_cons_of_pos _ hb] at hf
                obtain rfl : (p, v) = pv' := by injection hf
                exact ⟨lo, hi, hr, Or.inr ⟨h1, h2⟩⟩
            | true =>
              have hb : rangeBadB ranges (p, v) = false := by
                simp [rangeBadB, hr, h1, h2]
              simp only [checkRanges, hr, h1, h2] at h
              obtain ⟨ih1, ih2⟩ := ih r h
              refine ⟨by rw [List.find?_cons_of_neg _ (by simp [hb])]; exact ih1, ?_⟩
              intro pv' hf
              rw [List.find?_cons_of_neg _ (by simp [hb])] at hf
              exact ih2 pv' hf

/-- C4: `validate_parameters` returns false iff some required parameter
is missing, some supplied parameter mismatches its declared type, or some
supplied parameter violates its declared inclusive range; the checks run
in required → type → range order, the first failing check determines the
message, and within each phase the first offender in order (declaration
order for required parameters, supply order otherwise) wins. -/
theorem validate_parameters_spec :
    ∀ (c : Command) (params : Dict Value) (b : Bool) (msg : String),
      c.validate_parameters params = .ok (b, msg) →
      ((b = false ↔
          missingViolation c params ∨ typeViolation c params ∨
            rangeViolation c params) ∧
       (missingViolation c params →
          ∃ p, c.required_parameters.find? (missingB params) = some p ∧
            msg = "Missing required parameter: " ++ p) ∧
       (¬ missingViolation c params → typeViolation c params →
          ∃ pv ty, params.find? (typeBadB c.parameter_types) = some pv ∧
            lookupD c.parameter_types pv.1 = some ty ∧
            msg = "Invalid type for parameter " ++ pv.1 ++ ": expected "
              ++ ty.name) ∧
       (¬ missingViolation c params → ¬ typeViolation c params →
          rangeViolation c params →
          ∃ pv lo hi, params.find? (rangeBadB c.parameter_ranges) = some pv ∧
            lookupD c.parameter_ranges pv.1 = some (lo, hi) ∧
            msg = rangeMsg pv.1 pv.2 lo hi)) := by
  intro c params b msg h
  unfold Command.validate_parameters at h
  rcases hreq : checkRequired params c.required_parameters with _ | m0
  case some =>
    simp only [hreq] at h
    obtain ⟨hb, hm⟩ : false = b ∧ m0 = msg := by simpa using h
    subst hb
    rcases hfind : c.required_parameters.find? (missingB params) with _ | p
    · rw [checkRequired_eq params c.required_parameters, hfind] at hreq
      simp at hreq
    · rw [checkRequired_eq params c.required_parameters, hfind] at hreq
      simp only [Option.map_some'] at hreq
      have hreq' : "Missing required parameter: " ++ p = m0 := by
        injection hreq
      have hpm : p ∈ c.required_parameters := List.mem_of_find?_eq_some hfind
      have hpn : lookupD params p = none :=
        (missingB_true_iff params p).mp (List.find?_some hfind)
      have hmv : missingViolation c params := ⟨p, hpm, hpn⟩
      refine ⟨iff_of_true rfl (Or.inl hmv), ?_, ?_, ?_⟩
      · intro _
        exact ⟨p, rfl, (hreq'.trans hm).symm⟩
      · intro hnm _
        exact absurd hmv hnm
      · intro hnm _ _
        exact absurd hmv hnm
  case none =>
    have hnomiss : ¬ missingViolation c params := by
      rintro ⟨p, hpm, hpn⟩
      rw [checkRequired_eq params c.required_parameters] at hreq
      rcases hx : c.required_parameters.find? (missingB params) with _ | q
      · exact (List.find?_eq_none.mp hx p hpm)
          ((missingB_true_iff params p).mpr hpn)
      · rw [hx] at hreq
        simp at hreq
    simp only [hreq] at h
    rcases htyp : checkTypes c.parameter_types params with _ | m1
    case some =>
      simp only [htyp] at h
      obtain ⟨hb, hm⟩ : false = b ∧ m1 = msg := by simpa using h
      subst hb
      rcases hfind : params.find? (typeBadB c.parameter_types) with _ | pv
      · rw [checkTypes_eq c.parameter_types params, hfind] at htyp
        simp at htyp
      · rw [checkTypes_eq c.parameter_types params, hfind] at htyp
        simp only [Option.map_some'] at htyp
        have htyp' : typeMsgOf c.parameter_types pv = m1 := by injection htyp
        have hbad : typeBadB c.parameter_types pv = true := List.find?_some hfind
        obtain ⟨ty, hty, hinst⟩ := (typeBadB_true_iff c.parameter_types pv).mp hbad
        have hpv : pv ∈ params := List.mem_of_find?_eq_some hfind
        have htv : typeViolation c params := ⟨pv, hpv, ty, hty, hinst⟩
        have hmsg :
            msg = "Invalid type for parameter " ++ pv.1 ++ ": expected "
              ++ ty.name := by
          rw [← hm, ← htyp']
          simp [typeMsgOf, hty]
        refine ⟨iff_of_true rfl (Or.inr (Or.inl htv)), ?_, ?_, ?_⟩
        · intro hmv
          exact absurd hmv hnomiss
        · intro _ _
          exact ⟨pv, ty, rfl, hty, hmsg⟩
        · intro _ hnt _
          exact absurd htv hnt
    case none =>
      have hnotype : ¬ typeViolation c params := by
        rintro ⟨pv, hpv, ty, hty, hinst⟩
        rw [checkTypes_eq c.parameter_types params] at htyp
        rcases hx : params.find? (typeBadB c.parameter_types) with _ | q
        · exact (List.find?_eq_none.mp hx pv hpv)
            ((typeBadB_true_iff c.parameter_types pv).mpr ⟨ty, hty, hinst⟩)
        · rw [hx] at htyp
          simp at htyp
      simp only [htyp] at h
      rcases hrng : checkRanges c.parameter_ranges params with e | ropt
      · simp [hrng] at h
      · rcases ropt with _ | m2
        case none =>
          simp only [hrng] at h
          obtain ⟨hb, hm⟩ : true = b ∧ "Parameters valid" = msg := by simpa using h
          subst hb
          obtain ⟨hp1, _⟩ := checkRanges_ok c.parameter_ranges params none hrng
          have hfn : params.find? (rangeBadB c.parameter_ranges) = none := by
            rcases hx : params.find? (rangeBadB c.parameter_ranges) with _ | pv
            · rfl
            · rw [hx] at hp1
              simp at hp1
          have hnorange : ¬ rangeViolation c params := by
            rintro ⟨pv, hpv, lo, hi, hl, hv⟩
            exact (List.find?_eq_none.mp hfn pv hpv)
              (rangeBadB_of_violation c.parameter_ranges pv lo hi hl hv)
          refine ⟨iff_of_false (by simp) ?_, ?_, ?_, ?_⟩
          · rintro (hv | hv | hv)
            · exact hnomiss hv
            · exact hnotype hv
            · exact hnorange hv
          · intro hmv
            exact absurd hmv hnomiss
          · intro _ htv
            exact absurd htv hnotype
          · intro _ _ hrv
            exact absurd hrv hnorange
        case some =>
          simp only [hrng] at h
          obtain ⟨hb, hm⟩ : false = b ∧ m2 = msg := by simpa using h
          subst hb
          obtain ⟨hp1, hp2⟩ := checkRanges_ok c.parameter_ranges params (some m2) hrng
          rcases hfind : params.find? (rangeBadB c.parameter_ranges) with _ | pv
          · rw [hfind] at hp1
            simp at hp1
          · rw [hfind] at hp1
            simp only [Option.map_some'] at hp1
            have hp1' : m2 = rangeMsgOf c.parameter_ranges pv := by injection hp1
            obtain ⟨lo, hi, hl, hv⟩ := hp2 pv hfind
            have hpv : pv ∈ params := List.mem_of_find?_eq_some hfind
            have hrv : rangeViolation c params := ⟨pv, hpv, lo, hi, hl, hv⟩
            have hmsg : msg = rangeMsg pv.1 pv.2 lo hi := by
              rw [← hm, hp1']
              simp [rangeMsgOf, hl]
            refine ⟨iff_of_true rfl (Or.inr (Or.inr hrv)), ?_, ?_, ?_⟩
            · intro hmv
              exact absurd hmv hnomiss
            · intro _ htv
              exact absurd htv hnotype
            · intro _ _ _
              exact ⟨pv, lo, hi, rfl, hl, hmsg⟩

/-- C4 witness: `value = 1.5` against required `["value"]` and range
`[0, 1]` — no missing or mistyped parameter, so the range phase decides
and its message is returned. -/
theorem validate_parameters_spec_witness :
    (false = false ↔
      missingViolation valueCommand [("value", Value.vFloat threeHalves)] ∨
        typeViolation valueCommand [("value", Value.vFloat threeHalves)] ∨
          rangeViolation valueCommand [("value", Value.vFloat threeHalves)]) :=
  (validate_parameters_spec valueCommand [("value", Value.vFloat threeHalves)]
    false "Parameter value out of range: 0 <= 1.5 <= 1" (by decide)).1

end MDOF
